import Mathlib

/-!
Verification of the efficacy-analysis pipeline of `demo001`
(`src/python-package/demo001/efficacy.py`).

The four source functions are embedded shallowly over exact rationals:

* `prepare_locf_data`          → `prepareLocfData`
* `calculate_descriptive_stats`→ `calculateDescriptiveStats`
* `perform_ancova`             → `performAncova`
* `format_efficacy_table` / `format_comparison_table`
                               → `formatEfficacyTable` / `formatComparisonTable`

Modelling conventions, stated once here:

* Python floats are idealised as exact rationals `ℚ`; the IEEE value `nan`
  (which the source produces via `np.nan` and propagates through pandas /
  numpy reductions) is modelled by the extra constructor `Fl.nan`.
* Nullable polars columns are `Option ℚ`.
* Quantities whose source value is the square root of an exactly computed
  rational (standard deviations, standard errors of the ANCOVA) are carried
  as their squares, under field names suffixed `_sq` or documented at the
  field; the square determines the source value, which is non-negative.
* The two scipy collaborators used by `perform_ancova` —
  `scipy.stats.t.ppf(0.975, df)` and the tail-probability computation
  `2 * (1 - scipy.stats.t.cdf(|t|, df))` — are threaded in as explicit
  function parameters `tq` and `pfn`; the repository's own code never
  inspects their values.
* Python exceptions that the source can actually raise on the modelled
  paths (`ValueError` from `float(<non-numeric string>)`, `TypeError` from
  `float(None)`, and the numpy shape `ValueError` raised by `x @ M` on a
  length mismatch) are modelled with `Except`.
-/

unseal Rat.add Rat.sub Rat.mul Rat.inv Rat.ofScientific

/-- Float model: an exact rational or the IEEE `nan` produced by `np.nan`. -/
inductive Fl where
  | num (q : ℚ)
  | nan
deriving DecidableEq, Repr

/-- Python `x >= t` on a possibly-`nan` left operand: `nan >= t` is `False`. -/
def Fl.ge (a : Fl) (t : ℚ) : Bool :=
  match a with
  | .num q => decide (t ≤ q)
  | .nan => false

/-- Mean of a polars column (non-null entries assumed materialised in the
list); polars returns null on an empty column. -/
def plMean (xs : List ℚ) : Option ℚ :=
  if xs.length = 0 then none else some (xs.sum / (xs.length : ℚ))

/-- Sample variance with the `N - 1` denominator; polars `std` (whose value
is the square root of this) returns null when fewer than two entries are
present. -/
def plVar (xs : List ℚ) : Option ℚ :=
  if xs.length ≤ 1 then none
  else
    let m := xs.sum / (xs.length : ℚ)
    some ((xs.map (fun x => (x - m) ^ 2)).sum / ((xs.length : ℚ) - 1))

/-- One row of the joined laboratory table (ADLBC columns used by the
source: subject id, parameter code, visit index, treatment label, baseline
covariate, analysis value).  `BASE` and `AVAL` are nullable. -/
structure LabRow where
  USUBJID : String
  PARAMCD : String
  AVISITN : ℤ
  TRTP : String
  BASE : Option ℚ
  AVAL : Option ℚ
deriving DecidableEq, Repr

/-- Strict lexicographic order on character lists (kernel-computable). -/
def charListLT : List Char → List Char → Bool
  | _, [] => false
  | [], _ :: _ => true
  | a :: as, b :: bs => decide (a < b) || (decide (a = b) && charListLT as bs)

/-- Strict lexicographic order on strings, through their character lists
(the order polars uses on a string sort column). -/
def strLTb (a b : String) : Bool := charListLT a.toList b.toList

/-- Sort key of `data.sort(["USUBJID", "AVISITN"])`: lexicographic on
(subject id, visit index). -/
def rowLE (a b : LabRow) : Bool :=
  strLTb a.USUBJID b.USUBJID ||
    (decide (a.USUBJID = b.USUBJID) && decide (a.AVISITN ≤ b.AVISITN))

/-- Inner join of the lab table with the efficacy population on `USUBJID`
(the population table contributes only its key set), followed by the filter
to the requested parameter code and to visit indices at most the endpoint
week — lines 42-46 of `efficacy.py` before the sort. -/
def filteredData (adlbc : List LabRow) (adsl : List String)
    (param : String) (w : ℤ) : List LabRow :=
  (adlbc.filter (fun r => decide (r.USUBJID ∈ adsl))).filter
    (fun r => decide (r.PARAMCD = param) && decide (r.AVISITN ≤ w))

/-- Stable insertion of an element into a list: the new element goes after
every existing element that compares less-or-equal to it. -/
def insS (le : α → α → Bool) (x : α) : List α → List α
  | [] => [x]
  | y :: ys => if le y x then y :: insS le x ys else x :: y :: ys

/-- Stable insertion sort (structurally recursive, so that concrete runs
reduce inside the kernel); it models the stable multi-column polars
sort. -/
def sortS (le : α → α → Bool) : List α → List α
  | [] => []
  | x :: xs => insS le x (sortS le xs)

/-- Join, filter and sort — the `data` binding of `prepare_locf_data`. -/
def sortedData (adlbc : List LabRow) (adsl : List String)
    (param : String) (w : ℤ) : List LabRow :=
  sortS rowLE (filteredData adlbc adsl param w)

/-- Distinct subject keys in order of first appearance (one output row per
`group_by("USUBJID")` group). -/
def subjKeys (rows : List LabRow) : List String :=
  rows.foldl (fun acc r => if r.USUBJID ∈ acc then acc else acc ++ [r.USUBJID]) []

/-- Rows of one subject, in the ambient (sorted) order. -/
def subjRows (rows : List LabRow) (u : String) : List LabRow :=
  rows.filter (fun r => decide (r.USUBJID = u))

/-- One analysis record of the LOCF dataset: the aggregated columns of the
`group_by`/`agg` at lines 49-59 after the non-null filter at lines 60-63 and
the `CHG` derivation at lines 64-66.  `Baseline` and `LOCF` are plain `ℚ`
because the filter discards any record where either is null. -/
structure LocfRow where
  USUBJID : String
  TRTP : String
  BASE : Option ℚ
  Baseline : ℚ
  LOCF : ℚ
  Last_Visit : ℤ
  CHG : ℚ
deriving DecidableEq, Repr

/-- Aggregation of one subject group `g` (nonempty, in ascending visit
order): `TRTP.first()`, `BASE.first()`, `AVAL.filter(AVISITN == 0).first()`
as `Baseline`, `AVAL.last()` as the LOCF endpoint, `AVISITN.max()`; returns
`none` exactly when the subsequent non-null filter would drop the subject. -/
def locfRecord (u : String) (g : List LabRow) : Option LocfRow :=
  match g with
  | [] => none
  | r0 :: _ =>
    match ((g.filter (fun r => decide (r.AVISITN = 0))).head?).bind LabRow.AVAL,
        (g.getLast?).bind LabRow.AVAL with
    | some b, some l =>
      some ⟨u, r0.TRTP, r0.BASE, b, l, ((g.map LabRow.AVISITN).max?).getD 0, l - b⟩
    | none, _ => none
    | some _, none => none

/-- Embedding of `prepare_locf_data` (lines 16-69): join, filter, sort,
aggregate per subject, drop subjects with a null `Baseline` or null LOCF
endpoint, and derive `CHG`. -/
def prepareLocfData (adlbc : List LabRow) (adsl : List String)
    (param : String) (w : ℤ) : List LocfRow :=
  let s := sortedData adlbc adsl param w
  (subjKeys s).filterMap (fun u => locfRecord u (subjRows s u))

/-- Column names of the DataFrame returned by `prepare_locf_data` (key
column, aggregated columns in `agg` order, then the appended `CHG`). -/
def locfCols (w : ℤ) : List String :=
  ["USUBJID", "TRTP", "BASE", "Baseline",
   "Week_" ++ toString w ++ "_LOCF", "Last_Visit", "CHG"]

/-- Value of a decimal digit character. -/
def digitVal? (c : Char) : Option ℕ :=
  if '0' ≤ c ∧ c ≤ '9' then some (c.toNat - 48) else none

/-- Natural number denoted by a nonempty all-digit character list. -/
def natOfDigits? (cs : List Char) : Option ℕ :=
  if cs.isEmpty then none
  else cs.foldl
    (fun acc c =>
      match acc, digitVal? c with
      | some n, some d => some (n * 10 + d)
      | _, _ => none)
    (some 0)

/-- Python `float(s)` on a string, for the plain-decimal fragment
`[+-]? digits [. digits]?` of Python's float syntax (the only inputs the
modelled code paths meet are column-name strings, which this fragment
rejects exactly as Python does). -/
def parseQ (s : String) : Option ℚ :=
  let cs := s.toList
  let signAndRest : ℚ × List Char :=
    match cs with
    | '-' :: rest => (-1, rest)
    | '+' :: rest => (1, rest)
    | _ => (1, cs)
  let sgn := signAndRest.1
  let body := signAndRest.2
  let ip := body.takeWhile (fun c => c ≠ '.')
  match body.dropWhile (fun c => c ≠ '.') with
  | [] => (natOfDigits? ip).map (fun n => sgn * n)
  | _ :: fp =>
    match natOfDigits? ip, natOfDigits? fp with
    | some n, some f => some (sgn * ((n : ℚ) + (f : ℚ) / (10 : ℚ) ^ fp.length))
    | _, _ => none

/-- Exceptions raised by the Python code on the modelled paths. -/
inductive PyErr where
  | valueError (s : String)
  | typeError
deriving DecidableEq, Repr

/-- Python `float(x)` applied to a possibly-null scalar: `float(None)`
raises `TypeError`. -/
def pyFloatO (x : Option ℚ) : Except PyErr ℚ :=
  match x with
  | some q => .ok q
  | none => .error .typeError

/-- Python `float(s)` applied to a string: a non-numeric string raises
`ValueError`. -/
def pyFloatS (s : String) : Except PyErr ℚ :=
  match parseQ s with
  | some q => .ok q
  | none => .error (.valueError s)

/-- Analysis DataFrame handed to `calculate_descriptive_stats`: its column
names (the source branches on their number and indexes into them) and its
rows. -/
structure AnalysisFrame where
  cols : List String
  rows : List LocfRow
deriving DecidableEq, Repr

/-- DataFrame produced by the LOCF stage, as consumed downstream. -/
def locfFrame (adlbc : List LabRow) (adsl : List String)
    (param : String) (w : ℤ) : AnalysisFrame :=
  ⟨locfCols w, prepareLocfData adlbc adsl param w⟩

/-- Per-treatment-group descriptive record (the dict literal at lines
96-124).  The `_SD` fields carry the sample variance; the source value is
its square root (see the file header). -/
structure DescStats where
  Treatment : String
  N_Analysis : ℕ
  Baseline_Mean : Fl
  Baseline_SD : Fl
  Endpoint_Mean : Fl
  Endpoint_SD : Fl
  Change_Mean : Fl
  Change_SD : Fl
deriving DecidableEq, Repr

/-- Descriptive record of one treatment group, mirroring the evaluation
order of the dict literal at lines 96-113.  For a nonempty group the source
computes the endpoint statistics, when the frame has more than three
columns, as `float(trt_data.select(pl.col("*").exclude("USUBJID",
"TRTP")).columns[2]).mean()` — that is, `float` applied to the *name* of
the third remaining column — and otherwise from the hard-coded
`Week_24_LOCF` column.  The empty-group branch (lines 114-124) fills
`np.nan` sentinels. -/
def descForGroup (fr : AnalysisFrame) (trt : String) : Except PyErr DescStats :=
  let g := fr.rows.filter (fun r => decide (r.TRTP = trt))
  if 0 < g.length then do
    let thirdCol := (fr.cols.filter
      (fun c => decide (c ≠ "USUBJID") && decide (c ≠ "TRTP"))).getD 2 ""
    let bm ← pyFloatO (plMean (g.map LocfRow.Baseline))
    let bsd ← pyFloatO (plVar (g.map LocfRow.Baseline))
    let em ← if 3 < fr.cols.length then pyFloatS thirdCol
             else pyFloatO (plMean (g.map LocfRow.LOCF))
    let esd ← if 3 < fr.cols.length then pyFloatS thirdCol
              else pyFloatO (plVar (g.map LocfRow.LOCF))
    let cm ← pyFloatO (plMean (g.map LocfRow.CHG))
    let csd ← pyFloatO (plVar (g.map LocfRow.CHG))
    pure ⟨trt, g.length, .num bm, .num bsd, .num em, .num esd, .num cm, .num csd⟩
  else
    pure ⟨trt, 0, .nan, .nan, .nan, .nan, .nan, .nan⟩

/-- Embedding of `calculate_descriptive_stats` (lines 72-128): one record
per treatment group in list order; a Python exception aborts the whole
call. -/
def calculateDescriptiveStats (fr : AnalysisFrame) (treatments : List String) :
    Except PyErr (List DescStats) :=
  treatments.mapM (descForGroup fr)

/-- Digit character for a value below ten. -/
def digitChar (d : ℕ) : Char := Char.ofNat (48 + d)

/-- The `nd` decimal digits of `a % 10 ^ nd`, most significant first; the
result has length `nd` by construction. -/
def fracDigits (nd : ℕ) (a : ℕ) : List Char :=
  (List.range nd).map (fun k => digitChar (a / 10 ^ (nd - 1 - k) % 10))

/-- Round to the nearest integer, ties to the even integer — the rounding
of Python's fixed-point format specifier, idealised to exact rationals. -/
def roundHalfEven (x : ℚ) : ℤ :=
  let f := Rat.floor x
  let r := x - (f : ℚ)
  if r < 1 / 2 then f
  else if 1 / 2 < r then f + 1
  else if f % 2 = 0 then f else f + 1

/-- Python `f"{q:.ndf}"` on a (rational-idealised) float: fixed-point with
`nd` digits after the decimal point. -/
def fmtFixed (nd : ℕ) (q : ℚ) : String :=
  let s := roundHalfEven (q * (10 : ℚ) ^ nd)
  let a := s.natAbs
  (if s < 0 then "-" else "") ++ toString (a / 10 ^ nd) ++ "." ++
    String.mk (fracDigits nd (a % 10 ^ nd))

/-- Fixed-point format of a possibly-`nan` float: Python renders `nan`
as the string `nan` under a fixed-point specifier. -/
def fmtFl (nd : ℕ) (x : Fl) : String :=
  match x with
  | .num q => fmtFixed nd q
  | .nan => "nan"

/-- Row of least-squares-mean results as consumed by the efficacy-table
formatter (fields `LS_Mean`, `CI_Lower`, `CI_Upper` of the dicts built by
`perform_ancova`, here as caller-supplied floats). -/
structure LsFmtRow where
  Treatment : String
  LS_Mean : Fl
  CI_Lower : Fl
  CI_Upper : Fl
deriving DecidableEq, Repr

/-- Mean/SD cell of the efficacy table: `f"{mean:.1f} ({sd:.2f})"` unless
the mean is `nan`, in which case the cell is the empty string (lines
240-250). -/
def fmtMeanSD (m sd : Fl) : String :=
  match m with
  | .nan => ""
  | .num q => fmtFixed 1 q ++ " (" ++ fmtFl 2 sd ++ ")"

/-- Embedding of `format_efficacy_table` (lines 216-268): one row per
zipped (descriptive record, LS-mean record) pair, with the fixed schema
[Treatment, N_Base, Mean_SD_Base, N_End, Mean_SD_End, N_Chg, Mean_SD_Chg,
LS_Mean_CI]. -/
def formatEfficacyTable (desc : List DescStats) (ls : List LsFmtRow) :
    List (List String) :=
  (desc.zip ls).map (fun p =>
    [p.1.Treatment,
     toString p.1.N_Analysis,
     fmtMeanSD p.1.Baseline_Mean p.1.Baseline_SD,
     toString p.1.N_Analysis,
     fmtMeanSD p.1.Endpoint_Mean p.1.Endpoint_SD,
     toString p.1.N_Analysis,
     fmtMeanSD p.1.Change_Mean p.1.Change_SD,
     fmtFl 2 p.2.LS_Mean ++ " (" ++ fmtFl 2 p.2.CI_Lower ++ ", " ++
       fmtFl 2 p.2.CI_Upper ++ ")"])

/-- Row of pairwise-comparison results as consumed by the comparison-table
formatter (the dict fields read at lines 287-292, as caller-supplied
floats; the p-value may be `nan`). -/
structure CompFmtRow where
  Comparison : String
  Estimate : Fl
  CI_Lower : Fl
  CI_Upper : Fl
  p_value : Fl
deriving DecidableEq, Repr

/-- Embedding of `format_comparison_table` (lines 271-297): one row per
comparison with schema [Comparison, Diff_CI, P_Value]; the p-value cell is
`f"{p:.4f}"` when `p >= 0.0001` and the literal `"<0.0001"` otherwise. -/
def formatComparisonTable (comps : List CompFmtRow) : List (List String) :=
  comps.map (fun c =>
    [c.Comparison,
     fmtFl 2 c.Estimate ++ " (" ++ fmtFl 2 c.CI_Lower ++ ", " ++
       fmtFl 2 c.CI_Upper ++ ")",
     if c.p_value.ge (1 / 10000) then fmtFl 4 c.p_value else "<0.0001"])

/-- Rectangular rational matrix as a row list. -/
abbrev Matx := List (List ℚ)

/-- Dot product of two coordinate lists. -/
def dotQ (a b : List ℚ) : ℚ := (List.zipWith (fun x y => x * y) a b).sum

/-- Matrix of the given shape from an entry function; the row count and
row lengths hold by construction. -/
def mkMat (m p : ℕ) (f : ℕ → ℕ → ℚ) : Matx :=
  (List.range m).map (fun i => (List.range p).map (fun j => f i j))

/-- Entry of a matrix, out-of-range reads defaulting to zero. -/
def entry (M : Matx) (i j : ℕ) : ℚ := (M.getD i []).getD j 0

/-- Determinant by Laplace expansion along the first row, with a fuel
argument so that the recursive occurrence under `List.map` is structural. -/
def detAux : ℕ → Matx → ℚ
  | 0, _ => 1
  | fuel + 1, M =>
    match M with
    | [] => 1
    | row :: rest =>
      ((List.range row.length).map
        (fun j => (if j % 2 = 0 then (1 : ℚ) else -1) * row.getD j 0 *
          detAux fuel (rest.map (fun r => r.eraseIdx j)))).sum

/-- Determinant of a square rational matrix. -/
def detL (M : Matx) : ℚ := detAux M.length M

/-- Inverse of a `p × p` rational matrix via the adjugate; this is the true
inverse whenever `detL M ≠ 0`, which is the only situation in which the
fit uses it. -/
def invL (p : ℕ) (M : Matx) : Matx :=
  let d := detL M
  mkMat p p (fun i j =>
    (if (i + j) % 2 = 0 then (1 : ℚ) else -1) *
      detL ((M.eraseIdx j).map (fun r => r.eraseIdx i)) / d)

/-- Product of an `m × n` and an `n × p` matrix. -/
def matMulL (A B : Matx) (m n p : ℕ) : Matx :=
  mkMat m p (fun i j => ((List.range n).map (fun k => entry A i k * entry B k j)).sum)

/-- One elimination step of Gauss-Jordan reduction at the given column;
state is (matrix, pivot columns so far, next pivot row). -/
def rrefStep (st : Matx × List ℕ × ℕ) (col : ℕ) : Matx × List ℕ × ℕ :=
  let M := st.1
  let piv := st.2.1
  let nr := st.2.2
  match ((List.range M.length).filter
      (fun i => decide (nr ≤ i) && decide (entry M i col ≠ 0))).head? with
  | none => st
  | some i =>
    let rowi := M.getD i []
    let mSwap := (M.set i (M.getD nr [])).set nr rowi
    let p := entry mSwap nr col
    let prow := (mSwap.getD nr []).map (fun x => x / p)
    let m2 := mSwap.set nr prow
    let m3 := (List.range m2.length).map (fun k =>
      if k = nr then prow
      else
        let c := entry m2 k col
        List.zipWith (fun a b => a - c * b) (m2.getD k []) prow)
    (m3, piv ++ [col], nr + 1)

/-- Reduced row echelon form over `ncols` columns, with the pivot-column
list (whose length is the rank). -/
def rrefQ (M : Matx) (ncols : ℕ) : Matx × List ℕ :=
  let st := (List.range ncols).foldl rrefStep (M, [], 0)
  (st.1, st.2.1)

/-- Moore-Penrose pseudoinverse of a symmetric `p × p` rational matrix via
the full-rank factorisation `M = B C` read off the reduced row echelon form
(`B` = pivot columns of `M`, `C` = nonzero rows of the rref):
`M⁺ = Cᵗ (C Cᵗ)⁻¹ (Bᵗ B)⁻¹ Bᵗ`.  This is the exact-arithmetic counterpart
of the pseudoinverse statsmodels applies to a rank-deficient `XᵗX`. -/
def pinvSym (p : ℕ) (M : Matx) : Matx :=
  let rp := rrefQ M p
  let piv := rp.2
  let r := piv.length
  if r = 0 then mkMat p p (fun _ _ => 0)
  else
    let bMat := mkMat p r (fun i k => entry M i (piv.getD k 0))
    let cMat := mkMat r p (fun k j => entry rp.1 k j)
    let bT := mkMat r p (fun k i => entry bMat i k)
    let cT := mkMat p r (fun j k => entry cMat k j)
    let cct := matMulL cMat cT r p r
    let btb := matMulL bT bMat r p r
    matMulL (matMulL (matMulL cT (invL r cct) p r r) (invL r btb) p r r) bT p r p

/-- Row of the DataFrame handed to `perform_ancova`: treatment label,
baseline covariate and change from baseline (the three model variables of
`CHG ~ TRTP + BASE`). -/
structure ARow where
  TRTP : String
  BASE : ℚ
  CHG : ℚ
deriving DecidableEq, Repr

/-- Design row of `CHG ~ TRTP + BASE` under patsy's treatment coding with
the first element of the caller's `treatments` list as reference level:
intercept, one indicator per non-reference level in list order, then the
baseline covariate. -/
def designRow (treatments : List String) (t : String) (b : ℚ) : List ℚ :=
  1 :: ((treatments.drop 1).map (fun s => if t = s then (1 : ℚ) else 0) ++ [b])

/-- Rows entering the fit: `pd.Categorical(..., categories=treatments)`
maps a label outside `treatments` to `NaN`, and the formula interface then
drops that row. -/
def fitRows (data : List ARow) (treatments : List String) : List ARow :=
  data.filter (fun r => decide (r.TRTP ∈ treatments))

/-- Normal-equations matrix `XᵗX` of the pooled design. -/
def xtxOf (data : List ARow) (treatments : List String) : Matx :=
  let p := treatments.length + 1
  let xRows := (fitRows data treatments).map (fun r => designRow treatments r.TRTP r.BASE)
  mkMat p p (fun i j => (xRows.map (fun row => row.getD i 0 * row.getD j 0)).sum)

/-- Moment vector `Xᵗy` of the pooled design against the response `CHG`. -/
def xtyOf (data : List ARow) (treatments : List String) : List ℚ :=
  let p := treatments.length + 1
  (List.range p).map (fun i =>
    ((fitRows data treatments).map
      (fun r => (designRow treatments r.TRTP r.BASE).getD i 0 * r.CHG)).sum)

/-- Result of the OLS fit as `perform_ancova` consumes it: coefficient
vector (`model.params`), coefficient covariance matrix
(`model.cov_params()`, a `p × p` matrix), residual degrees of freedom
(`model.df_resid = nobs - rank`), and the design rank. -/
structure FitResult where
  params : List ℚ
  cov : Matx
  df_resid : ℕ
  rankX : ℕ
deriving DecidableEq, Repr

/-- Embedding of `smf.ols("CHG ~ TRTP + BASE", data=...).fit()`.
statsmodels solves least squares through the Moore-Penrose pseudoinverse
and never raises on a rank-deficient design; on a full-rank design the
solution is the normal-equations one.  `cov = (rss / df_resid) (XᵗX)⁻¹`
(pseudoinverse when singular), `df_resid = n - rank`. -/
def fitOLS (data : List ARow) (treatments : List String) : FitResult :=
  let p := treatments.length + 1
  let rows := fitRows data treatments
  let n := rows.length
  let xtx := xtxOf data treatments
  let xty := xtyOf data treatments
  let fullRank := decide (detL xtx ≠ 0)
  let rank := if fullRank then p else (rrefQ xtx p).2.length
  let xtxInv := if fullRank then invL p xtx else pinvSym p xtx
  let params := (List.range p).map
    (fun i => ((List.range p).map (fun j => entry xtxInv i j * xty.getD j 0)).sum)
  let rss := (rows.map
    (fun r => (r.CHG - dotQ (designRow treatments r.TRTP r.BASE) params) ^ 2)).sum
  let df := n - rank
  let sigma2 := rss / (df : ℚ)
  ⟨params, mkMat p p (fun i j => sigma2 * entry xtxInv i j), df, rank⟩

/-- numpy `x @ M` for a vector and a matrix: defined only when the row
count of `M` equals the length of `x`, otherwise numpy raises a shape
`ValueError`. -/
def vecMatL (x : List ℚ) (M : Matx) : List ℚ :=
  (List.range (M.headD []).length).map
    (fun j => (List.zipWith (fun a row => a * row.getD j 0) x M).sum)

/-- numpy `x_pred @ var_cov @ x_pred.T` (line 167): `none` models the shape
`ValueError` raised when the length of `x` does not match the matrix. -/
def quadForm (x : List ℚ) (M : Matx) : Option ℚ :=
  if M.length = x.length then
    let xM := vecMatL x M
    if xM.length = x.length then some (dotQ xM x) else none
  else none

/-- Index names of `model.params` under patsy's treatment coding:
`Intercept`, `TRTP[T.<level>]` per non-reference level, `BASE`. -/
def paramNames (treatments : List String) : List String :=
  "Intercept" :: ((treatments.drop 1).map (fun t => "TRTP[T." ++ t ++ "]") ++ ["BASE"])

/-- pandas `Series.mean()`: the arithmetic mean (the source applies it to
the full, nonempty `BASE` column before any row is dropped). -/
def qMean (xs : List ℚ) : ℚ := xs.sum / (xs.length : ℚ)

/-- LS-means dict built at lines 169-177.  The source stores
`SE = sqrt SE_sq` and the interval
`[LS_Mean - CI_mult * SE, LS_Mean + CI_mult * SE]`; the multiplier and the
squared standard error are carried exactly. -/
structure LsRec where
  Treatment : String
  LS_Mean : ℚ
  SE_sq : ℚ
  CI_mult : ℚ
deriving DecidableEq, Repr

/-- Comparison dict built at lines 196-206.  The source stores
`SE = sqrt SE_sq`, `t_stat` with `t_stat ^ 2 = tstat_sq`, and the interval
`[Estimate - CI_mult * SE, Estimate + CI_mult * SE]`. -/
structure CmpRec where
  Comparison : String
  Estimate : ℚ
  SE_sq : ℚ
  tstat_sq : ℚ
  p_value : Fl
  CI_mult : ℚ
deriving DecidableEq, Repr

/-- The only exception `perform_ancova` itself can raise on the modelled
paths: the numpy shape `ValueError` from `x_pred @ var_cov` when the
hard-coded length-4 prediction vector does not match the coefficient
count.  The repository defines no `SingularDesignError` and statsmodels
does not raise on a singular design. -/
inductive AErr where
  | dimMismatch
deriving DecidableEq, Repr

/-- Return value of `perform_ancova` (the `model` object is represented by
the fields `perform_ancova` reads from it: `params`, `cov_params()`,
`df_resid`). -/
structure AncovaResult where
  params : List ℚ
  cov : Matx
  df_resid : ℕ
  baseline_mean : ℚ
  ls_means : List LsRec
  comparisons : List CmpRec
deriving DecidableEq, Repr

/-- Python `for` loop collecting one result per element, aborting on the
first raised exception. -/
def collectE (f : α → Except ε β) : List α → Except ε (List β)
  | [] => .ok []
  | x :: xs =>
    match f x with
    | .error e => .error e
    | .ok y =>
      match collectE f xs with
      | .error e => .error e
      | .ok ys => .ok (y :: ys)

/-- The hard-coded prediction vector of line 161:
`np.array([1, int(i == 1), int(i == 2), base_mean])` — length 4 regardless
of the number of treatment groups. -/
def xPredRow (i : ℕ) (bm : ℚ) : List ℚ :=
  [1, if i = 1 then 1 else 0, if i = 2 then 1 else 0, bm]

/-- Body of the LS-means loop (lines 159-177) for the enumerated pair
(index, treatment label). -/
def lsMeanStep (fit : FitResult) (treatments : List String) (baseMean : ℚ)
    (it : ℕ × String) : Except AErr LsRec :=
  match quadForm (xPredRow it.1 baseMean) fit.cov with
  | some s =>
    .ok ⟨it.2, dotQ (designRow treatments it.2 baseMean) fit.params, s, 196 / 100⟩
  | none => .error AErr.dimMismatch

/-- Body of the comparisons loop (lines 184-206) for a non-reference
treatment label. -/
def comparisonStep (tq : ℕ → ℚ) (pfn : ℚ → ℕ → Fl) (fit : FitResult)
    (treatments : List String) (trt : String) : Option CmpRec :=
  let cname := "TRTP[T." ++ trt ++ "]"
  if cname ∈ paramNames treatments then
    let j := ((paramNames treatments).findIdx? (fun s => decide (s = cname))).getD 0
    let coef := fit.params.getD j 0
    let sesq := entry fit.cov j j
    some ⟨trt ++ " vs. " ++ treatments.headD "", coef, sesq,
      coef ^ 2 / sesq, pfn (coef ^ 2 / sesq) fit.df_resid, tq fit.df_resid⟩
  else none

/-- Embedding of `perform_ancova` (lines 131-213).  `tq df` stands for
`scipy.stats.t.ppf(0.975, df)` and `pfn s df` for
`2 * (1 - scipy.stats.t.cdf(sqrt s, df))`; both are opaque collaborators
threaded in as parameters.  The LS-means loop uses the hard-coded
prediction vector `xPredRow` (line 161), the model prediction at the
group's level and the pooled baseline mean (line 164), and the 1.96 normal
multiplier (lines 174-175); the comparison loop reads the indicator
coefficient and its variance for each non-reference level present in the
parameter index and uses the Student-t multiplier (lines 193-194).  The
LS-means loop runs before the comparison loop, so its exception aborts the
whole call. -/
def performAncova (tq : ℕ → ℚ) (pfn : ℚ → ℕ → Fl)
    (data : List ARow) (treatments : List String) : Except AErr AncovaResult :=
  let fit := fitOLS data treatments
  let baseMean := qMean (data.map ARow.BASE)
  match collectE (lsMeanStep fit treatments baseMean) treatments.enum with
  | .error e => .error e
  | .ok lsMeans =>
    let comparisons :=
      if 1 < treatments.length then
        (treatments.drop 1).filterMap (comparisonStep tq pfn fit treatments)
      else []
    .ok ⟨fit.params, fit.cov, fit.df_resid, baseMean, lsMeans, comparisons⟩

/-- Transitivity of the strict lexicographic order on character lists. -/
theorem charListLT_trans : ∀ (x y z : List Char),
    charListLT x y = true → charListLT y z = true → charListLT x z = true := by
  intro x
  induction x with
  | nil =>
    intro y z hxy hyz
    cases y with
    | nil => simp [charListLT] at hxy
    | cons b bs =>
      cases z with
      | nil => simp [charListLT] at hyz
      | cons c cs => simp [charListLT]
  | cons a as ih =>
    intro y z hxy hyz
    cases y with
    | nil => simp [charListLT] at hxy
    | cons b bs =>
      cases z with
      | nil => simp [charListLT] at hyz
      | cons c cs =>
        simp only [charListLT, Bool.or_eq_true, Bool.and_eq_true,
          decide_eq_true_eq] at hxy hyz ⊢
        rcases hxy with h1 | ⟨h1, h1'⟩ <;> rcases hyz with h2 | ⟨h2, h2'⟩
        · exact Or.inl (lt_trans h1 h2)
        · exact Or.inl (by rw [← h2]; exact h1)
        · exact Or.inl (by rw [h1]; exact h2)
        · exact Or.inr ⟨h1.trans h2, ih bs cs h1' h2'⟩

/-- Trichotomy of the strict lexicographic order on character lists. -/
theorem charListLT_tri : ∀ (x y : List Char),
    charListLT x y = true ∨ charListLT y x = true ∨ x = y := by
  intro x
  induction x with
  | nil =>
    intro y
    cases y with
    | nil => exact Or.inr (Or.inr rfl)
    | cons b bs => exact Or.inl (by simp [charListLT])
  | cons a as ih =>
    intro y
    cases y with
    | nil => exact Or.inr (Or.inl (by simp [charListLT]))
    | cons b bs =>
      rcases lt_trichotomy a b with h | h | h
      · exact Or.inl (by simp [charListLT, h])
      · rcases ih bs with h' | h' | h'
        · exact Or.inl (by simp [charListLT, h, h'])
        · exact Or.inr (Or.inl (by simp [charListLT, h, h']))
        · exact Or.inr (Or.inr (by rw [h, h']))
      · exact Or.inr (Or.inl (by simp [charListLT, h]))

/-- Transitivity of the string order. -/
theorem strLTb_trans (a b c : String) (h1 : strLTb a b = true)
    (h2 : strLTb b c = true) : strLTb a c = true :=
  charListLT_trans a.toList b.toList c.toList h1 h2

/-- Trichotomy of the string order. -/
theorem strLTb_tri (a b : String) :
    strLTb a b = true ∨ strLTb b a = true ∨ a = b := by
  rcases charListLT_tri a.toList b.toList with h | h | h
  · exact Or.inl h
  · exact Or.inr (Or.inl h)
  · refine Or.inr (Or.inr ?_)
    cases a with
    | mk da =>
      cases b with
      | mk db =>
        have hd : da = db := by simpa [String.toList] using h
        rw [hd]

/-- Irreflexivity of the string order. -/
theorem strLTb_irrefl (a : String) : strLTb a a = false := by
  rw [strLTb]
  induction a.toList with
  | nil => rfl
  | cons c cs ih => simp [charListLT, ih]

/-- Transitivity of the (subject id, visit index) sort key. -/
theorem rowLE_trans (a b c : LabRow) (hab : rowLE a b = true)
    (hbc : rowLE b c = true) : rowLE a c = true := by
  simp only [rowLE, Bool.or_eq_true, Bool.and_eq_true, decide_eq_true_eq] at *
  rcases hab with h1 | ⟨h1, h1'⟩ <;> rcases hbc with h2 | ⟨h2, h2'⟩
  · exact Or.inl (strLTb_trans _ _ _ h1 h2)
  · exact Or.inl (by rw [← h2]; exact h1)
  · exact Or.inl (by rw [h1]; exact h2)
  · exact Or.inr ⟨h1.trans h2, le_trans h1' h2'⟩

/-- Totality of the (subject id, visit index) sort key. -/
theorem rowLE_total (a b : LabRow) : (rowLE a b || rowLE b a) = true := by
  simp only [rowLE, Bool.or_eq_true, Bool.and_eq_true, decide_eq_true_eq]
  rcases strLTb_tri a.USUBJID b.USUBJID with h | h | h
  · exact Or.inl (Or.inl h)
  · exact Or.inr (Or.inl h)
  · rcases le_total a.AVISITN b.AVISITN with h' | h'
    · exact Or.inl (Or.inr ⟨h, h'⟩)
    · exact Or.inr (Or.inr ⟨h.symm, h'⟩)

/-- Membership is preserved by stable insertion. -/
theorem mem_insS {le : α → α → Bool} {x a : α} :
    ∀ {l : List α}, a ∈ insS le x l ↔ a = x ∨ a ∈ l := by
  intro l
  induction l with
  | nil => simp [insS]
  | cons y ys ih =>
    by_cases h : le y x = true
    · simp only [insS, if_pos h, List.mem_cons, ih]
      tauto
    · simp only [insS, if_neg h, List.mem_cons]

/-- Membership is preserved by insertion sort. -/
theorem mem_sortS {le : α → α → Bool} {a : α} :
    ∀ {l : List α}, a ∈ sortS le l ↔ a ∈ l := by
  intro l
  induction l with
  | nil => simp [sortS]
  | cons y ys ih => simp [sortS, mem_insS, ih]

/-- Stable insertion preserves pairwise ordering, for a transitive and
total comparison. -/
theorem pairwise_insS {le : α → α → Bool}
    (htrans : ∀ a b c, le a b = true → le b c = true → le a c = true)
    (htotal : ∀ a b, (le a b || le b a) = true) (x : α) :
    ∀ {l : List α}, l.Pairwise (fun a b => le a b = true) →
      (insS le x l).Pairwise (fun a b => le a b = true) := by
  intro l
  induction l with
  | nil => simp [insS]
  | cons y ys ih =>
    intro hp
    obtain ⟨hy, hys⟩ := List.pairwise_cons.mp hp
    by_cases h : le y x = true
    · rw [insS, if_pos h]
      refine List.pairwise_cons.mpr ⟨?_, ih hys⟩
      intro z hz
      rcases mem_insS.mp hz with rfl | hz'
      · exact h
      · exact hy z hz'
    · rw [insS, if_neg h]
      have hxy : le x y = true := by
        rcases Bool.or_eq_true_iff.mp (htotal y x) with h' | h'
        · exact absurd h' h
        · exact h'
      refine List.pairwise_cons.mpr ⟨?_, hp⟩
      intro z hz
      rcases List.mem_cons.mp hz with rfl | hz'
      · exact hxy
      · exact htrans x y z hxy (hy z hz')

/-- Insertion sort produces a pairwise-ordered list, for a transitive and
total comparison. -/
theorem pairwise_sortS {le : α → α → Bool}
    (htrans : ∀ a b c, le a b = true → le b c = true → le a c = true)
    (htotal : ∀ a b, (le a b || le b a) = true) :
    ∀ (l : List α), (sortS le l).Pairwise (fun a b => le a b = true) := by
  intro l
  induction l with
  | nil => simp [sortS]
  | cons y ys ih => exact pairwise_insS htrans htotal y ih

/-- Sorting permutes, so membership in the sorted data is membership in the
filtered data. -/
theorem mem_sortedData {r : LabRow} {adlbc : List LabRow} {adsl : List String}
    {param : String} {w : ℤ} :
    r ∈ sortedData adlbc adsl param w ↔ r ∈ filteredData adlbc adsl param w := by
  simp [sortedData, mem_sortS]

/-- The sorted data is pairwise ordered by the sort key. -/
theorem pairwise_sortedData (adlbc : List LabRow) (adsl : List String)
    (param : String) (w : ℤ) :
    (sortedData adlbc adsl param w).Pairwise (fun a b => rowLE a b = true) :=
  pairwise_sortS rowLE_trans rowLE_total (filteredData adlbc adsl param w)

/-- In a pairwise-ordered list, every element is the last one or related to
it. -/
theorem pairwise_last_bound {α : Type} {R : α → α → Prop} :
    ∀ {l : List α} {z : α}, l.Pairwise R → l.getLast? = some z →
      ∀ x ∈ l, x = z ∨ R x z := by
  intro l
  induction l with
  | nil => intro z _ hz; simp at hz
  | cons a t ih =>
    intro z hp hz x hx
    cases t with
    | nil =>
      simp only [List.getLast?_singleton, Option.some.injEq] at hz
      simp only [List.mem_singleton] at hx
      exact Or.inl (hx.trans hz)
    | cons b t' =>
      have hz' : (b :: t').getLast? = some z := by
        simpa [List.getLast?_cons_cons] using hz
      have hzmem : z ∈ b :: t' := List.mem_of_mem_getLast? (by simp [hz'])
      rcases List.mem_cons.mp hx with rfl | hx'
      · exact Or.inr ((List.pairwise_cons.mp hp).1 z hzmem)
      · exact ih (List.pairwise_cons.mp hp).2 hz' x hx'

/-- Membership in a subject's row group. -/
theorem mem_subjRows {rows : List LabRow} {u : String} {r : LabRow} :
    r ∈ subjRows rows u ↔ r ∈ rows ∧ r.USUBJID = u := by
  simp [subjRows]

/-- Membership in the joined-and-filtered data unfolded. -/
theorem mem_filteredData {r : LabRow} {adlbc : List LabRow} {adsl : List String}
    {param : String} {w : ℤ} :
    r ∈ filteredData adlbc adsl param w ↔
      ((r ∈ adlbc ∧ r.USUBJID ∈ adsl) ∧ r.PARAMCD = param ∧ r.AVISITN ≤ w) := by
  simp only [filteredData, List.mem_filter, Bool.and_eq_true, decide_eq_true_eq]

/-- Inversion of the per-subject aggregation: a produced record carries the
subject key, satisfies the `CHG` equation, takes its `Baseline` from a
visit-0 row of the group and its LOCF endpoint from the group's last
row. -/
theorem locfRecord_inv {u : String} {g : List LabRow} {t : LocfRow}
    (h : locfRecord u g = some t) :
    t.USUBJID = u ∧ t.CHG = t.LOCF - t.Baseline ∧
    (∃ rB ∈ g, rB.AVISITN = 0 ∧ rB.AVAL = some t.Baseline) ∧
    (∃ rL, g.getLast? = some rL ∧ rL.AVAL = some t.LOCF) := by
  cases g with
  | nil =>
    rw [locfRecord] at h
    exact Option.noConfusion h
  | cons r0 tl =>
    cases hB : (((r0 :: tl).filter (fun r => decide (r.AVISITN = 0))).head?).bind LabRow.AVAL with
    | none =>
      rw [locfRecord, hB] at h
      exact Option.noConfusion h
    | some b =>
      cases hL : ((r0 :: tl).getLast?).bind LabRow.AVAL with
      | none =>
        rw [locfRecord, hB, hL] at h
        exact Option.noConfusion h
      | some l =>
        rw [locfRecord, hB, hL] at h
        have ht : (⟨u, r0.TRTP, r0.BASE, b, l,
            (((r0 :: tl).map LabRow.AVISITN).max?).getD 0, l - b⟩ : LocfRow) = t :=
          Option.some.inj h
        obtain ⟨rB', hB'⟩ := Option.bind_eq_some.mp hB
        obtain ⟨rL', hL'⟩ := Option.bind_eq_some.mp hL
        have hrBmem : rB' ∈ (r0 :: tl).filter (fun r => decide (r.AVISITN = 0)) :=
          List.mem_of_mem_head? (by simp [hB'.1])
        have hrB := List.mem_filter.mp hrBmem
        refine ⟨by rw [← ht], by rw [← ht], ⟨rB', hrB.1, by simpa using hrB.2, ?_⟩,
          ⟨rL', hL'.1, ?_⟩⟩
        · rw [← ht]; exact hB'.2
        · rw [← ht]; exact hL'.2

/-- Inversion of `prepareLocfData` membership: every output record arises
from aggregating one subject's sorted row group. -/
theorem mem_prepare_inv {adlbc : List LabRow} {adsl : List String}
    {param : String} {w : ℤ} {t : LocfRow}
    (ht : t ∈ prepareLocfData adlbc adsl param w) :
    ∃ u, locfRecord u (subjRows (sortedData adlbc adsl param w) u) = some t := by
  simp only [prepareLocfData, List.mem_filterMap] at ht
  obtain ⟨u, _, h⟩ := ht
  exact ⟨u, h⟩

/-- For rows of one subject, the sort key degenerates to the visit index. -/
theorem rowLE_same_subject {a b : LabRow} (ha : a.USUBJID = b.USUBJID)
    (h : rowLE a b = true) : a.AVISITN ≤ b.AVISITN := by
  simp only [rowLE, Bool.or_eq_true, Bool.and_eq_true, decide_eq_true_eq] at h
  rcases h with h | ⟨_, h⟩
  · rw [ha, strLTb_irrefl] at h
    exact absurd h (by simp)
  · exact h

/-- C4: for every subject in the joined, parameter-filtered data that
yields an analysis record, `prepare_locf_data` takes as the LOCF endpoint
the observed value of a row of that subject at the greatest visit index
among the subject's filtered rows — in particular at a visit index at most
`endpoint_week`, so a visit beyond the window is never selected. -/
theorem locf_endpoint_window (adlbc : List LabRow) (adsl : List String)
    (param : String) (w : ℤ) (t : LocfRow)
    (ht : t ∈ prepareLocfData adlbc adsl param w) :
    ∃ r ∈ filteredData adlbc adsl param w,
      r.USUBJID = t.USUBJID ∧ r.AVISITN ≤ w ∧ r.AVAL = some t.LOCF ∧
      ∀ r' ∈ filteredData adlbc adsl param w,
        r'.USUBJID = t.USUBJID → r'.AVISITN ≤ r.AVISITN := by
  obtain ⟨u, hrec⟩ := mem_prepare_inv ht
  obtain ⟨huid, _, _, rL, hLast, hLval⟩ := locfRecord_inv hrec
  have hgpair : (subjRows (sortedData adlbc adsl param w) u).Pairwise
      (fun a b => rowLE a b = true) :=
    List.Pairwise.filter _ (pairwise_sortedData adlbc adsl param w)
  have hrLmem : rL ∈ subjRows (sortedData adlbc adsl param w) u :=
    List.mem_of_mem_getLast? (by simp [hLast])
  obtain ⟨hrLs, hrLu⟩ := mem_subjRows.mp hrLmem
  have hrLf : rL ∈ filteredData adlbc adsl param w := mem_sortedData.mp hrLs
  refine ⟨rL, hrLf, by rw [hrLu, huid], (mem_filteredData.mp hrLf).2.2, hLval, ?_⟩
  intro r' hr'f hr'u
  have hr'g : r' ∈ subjRows (sortedData adlbc adsl param w) u :=
    mem_subjRows.mpr ⟨mem_sortedData.mpr hr'f, by rw [hr'u, huid]⟩
  rcases pairwise_last_bound hgpair hLast r' hr'g with h | h
  · rw [h]
  · exact rowLE_same_subject (by rw [hr'u, huid, hrLu]) h

/-- Laboratory rows of a single subject whose post-window visit (index 30)
must not be used: visits 0, 8, 16, 24, 30 with values 100, 110, 105, 120,
130. -/
def wLab : List LabRow :=
  [⟨"01", "GLUC", 0, "A", some 5, some 100⟩,
   ⟨"01", "GLUC", 8, "A", some 5, some 110⟩,
   ⟨"01", "GLUC", 16, "A", some 5, some 105⟩,
   ⟨"01", "GLUC", 24, "A", some 5, some 120⟩,
   ⟨"01", "GLUC", 30, "A", some 5, some 130⟩]

/-- The analysis record the pipeline derives for `wLab`: LOCF endpoint 120
(the week-24 value, not the later 130), change 20. -/
def wRec : LocfRow := ⟨"01", "A", some 5, 100, 120, 24, 20⟩


/-- Witness for `locf_endpoint_window` at a concrete input. -/
theorem locf_endpoint_window_witness :
    wRec ∈ prepareLocfData wLab ["01"] "GLUC" 24 ∧
    ∃ r ∈ filteredData wLab ["01"] "GLUC" 24,
      r.USUBJID = wRec.USUBJID ∧ r.AVISITN ≤ 24 ∧ r.AVAL = some wRec.LOCF ∧
      ∀ r' ∈ filteredData wLab ["01"] "GLUC" 24,
        r'.USUBJID = wRec.USUBJID → r'.AVISITN ≤ r.AVISITN :=
  ⟨by decide, locf_endpoint_window wLab ["01"] "GLUC" 24 wRec (by decide)⟩

/-- C5: every analysis record has its `Baseline` witnessed by a visit-0 row
and its LOCF endpoint witnessed by a row of the same subject (both
non-missing, being `some`-valued), with `CHG` equal to their difference;
and a subject with no visit-0 observation in the filtered data is excluded
from the result. -/
theorem locf_exclusion_invariant (adlbc : List LabRow) (adsl : List String)
    (param : String) (w : ℤ) :
    (∀ t ∈ prepareLocfData adlbc adsl param w,
       (∃ r ∈ filteredData adlbc adsl param w,
          r.USUBJID = t.USUBJID ∧ r.AVISITN = 0 ∧ r.AVAL = some t.Baseline) ∧
       (∃ r ∈ filteredData adlbc adsl param w,
          r.USUBJID = t.USUBJID ∧ r.AVAL = some t.LOCF) ∧
       t.CHG = t.LOCF - t.Baseline) ∧
    (∀ u : String,
       (∀ r ∈ filteredData adlbc adsl param w, r.USUBJID = u → r.AVISITN ≠ 0) →
       ∀ t ∈ prepareLocfData adlbc adsl param w, t.USUBJID ≠ u) := by
  constructor
  · intro t ht
    obtain ⟨u, hrec⟩ := mem_prepare_inv ht
    obtain ⟨huid, hchg, ⟨rB, hrBg, hrB0, hrBa⟩, rL, hLast, hLa⟩ := locfRecord_inv hrec
    obtain ⟨hrBs, hrBu⟩ := mem_subjRows.mp hrBg
    have hrLg : rL ∈ subjRows (sortedData adlbc adsl param w) u :=
      List.mem_of_mem_getLast? (by simp [hLast])
    obtain ⟨hrLs, hrLu⟩ := mem_subjRows.mp hrLg
    exact ⟨⟨rB, mem_sortedData.mp hrBs, by rw [hrBu, huid], hrB0, hrBa⟩,
      ⟨rL, mem_sortedData.mp hrLs, by rw [hrLu, huid], hLa⟩, hchg⟩
  · intro u hu t ht htu
    obtain ⟨u', hrec⟩ := mem_prepare_inv ht
    have huu : u' = u := by rw [← (locfRecord_inv hrec).1, htu]
    subst huu
    have hfil : (subjRows (sortedData adlbc adsl param w) u').filter
        (fun r => decide (r.AVISITN = 0)) = [] := by
      rw [List.filter_eq_nil_iff]
      intro r hr
      obtain ⟨hrs, hru⟩ := mem_subjRows.mp hr
      simpa using hu r (mem_sortedData.mp hrs) hru
    cases hg : subjRows (sortedData adlbc adsl param w) u' with
    | nil =>
      rw [hg, locfRecord] at hrec
      exact Option.noConfusion hrec
    | cons r0 tl =>
      rw [hg] at hrec hfil
      rw [locfRecord, hfil] at hrec
      exact Option.noConfusion hrec

/-- Laboratory rows where subject 02 has no visit-0 observation (but does
carry a first-encountered baseline covariate). -/
def wLab5 : List LabRow :=
  [⟨"01", "GLUC", 0, "A", some 5, some 100⟩,
   ⟨"01", "GLUC", 24, "A", some 5, some 110⟩,
   ⟨"02", "GLUC", 8, "A", some 6, some 90⟩,
   ⟨"02", "GLUC", 24, "A", some 6, some 95⟩]

/-- Witness for `locf_exclusion_invariant`: subject 02, which has no
visit-0 row, appears in no analysis record. -/
theorem locf_exclusion_invariant_witness :
    ¬ ("02" ∈ (prepareLocfData wLab5 ["01", "02"] "GLUC" 24).map LocfRow.USUBJID) := by
  intro hmem
  obtain ⟨t, ht, htu⟩ := List.mem_map.mp hmem
  exact (locf_exclusion_invariant wLab5 ["01", "02"] "GLUC" 24).2 "02"
    (by decide) t ht htu

/-- Decidable equality of `Except` values, for evaluating concrete runs. -/
instance {e a : Type} [DecidableEq e] [DecidableEq a] : DecidableEq (Except e a) := fun x y =>
  match x, y with
  | .ok v, .ok w => decidable_of_iff (v = w) (by simp)
  | .error v, .error w => decidable_of_iff (v = w) (by simp)
  | .ok _, .error _ => isFalse (by simp)
  | .error _, .ok _ => isFalse (by simp)

/-- Laboratory rows of two complete subjects in treatment group A. -/
def bLab : List LabRow :=
  [⟨"01", "GLUC", 0, "A", some 5, some 100⟩,
   ⟨"01", "GLUC", 24, "A", some 5, some 110⟩,
   ⟨"02", "GLUC", 0, "A", some 6, some 90⟩,
   ⟨"02", "GLUC", 24, "A", some 6, some 95⟩]

/-- C2: `calculate_descriptive_stats` cannot return the endpoint statistics
of any nonempty treatment group.  On the pipeline's own analysis frame
(more than three columns) it evaluates `float` on the *column name*
`"Week_24_LOCF"` and raises `ValueError` (lines 101-110); and for a
single-subject group it already raises `TypeError` at `float(None)` when
the N-1 standard deviation of one value is null (line 100). -/
theorem calc_desc_stats_crash :
    calculateDescriptiveStats (locfFrame bLab ["01", "02"] "GLUC" 24) ["A"] =
      .error (.valueError "Week_24_LOCF") ∧
    calculateDescriptiveStats (locfFrame bLab ["01"] "GLUC" 24) ["A"] =
      .error .typeError := by decide

/-- C9: on a two-group input whose second group has zero matching subjects,
`calculate_descriptive_stats` fails (because of the nonempty first group's
endpoint-statistics bug) instead of returning records; the empty-group
branch itself is correct — with only empty groups the call returns count 0
and `nan` sentinels — and `format_efficacy_table` renders a missing mean
cell as the empty string, not `"nan"` or `"0.0"`. -/
theorem empty_group_handling :
    calculateDescriptiveStats (locfFrame bLab ["01", "02"] "GLUC" 24) ["A", "B"] =
      .error (.valueError "Week_24_LOCF") ∧
    calculateDescriptiveStats (locfFrame bLab ["01", "02"] "GLUC" 24) ["B"] =
      .ok [⟨"B", 0, .nan, .nan, .nan, .nan, .nan, .nan⟩] ∧
    formatEfficacyTable [⟨"B", 0, .nan, .nan, .nan, .nan, .nan, .nan⟩]
        [⟨"B", .num 1, .num 0, .num 2⟩] =
      [["B", "0", "", "0", "", "0", "", "1.00 (0.00, 2.00)"]] := by decide

/-- C8: the p-value cell of the comparison table is the literal "<0.0001"
when the p-value is below 0.0001 and otherwise the fixed-point rendering
with exactly four digits after the decimal point; in particular
p = 0.00004 renders as "<0.0001" and p = 0.0001 renders as "0.0001"
(line 291). -/
theorem pvalue_formatting (c : CompFmtRow) (q : ℚ) (hq : c.p_value = .num q) :
    (q < 1 / 10000 →
      ((formatComparisonTable [c]).getD 0 []).getD 2 "" = "<0.0001") ∧
    (1 / 10000 ≤ q →
      ((formatComparisonTable [c]).getD 0 []).getD 2 "" = fmtFixed 4 q ∧
      ∃ pre ds : String, fmtFixed 4 q = pre ++ "." ++ ds ∧ ds.length = 4) ∧
    ((formatComparisonTable
        [⟨"High vs. Placebo", .num 1, .num 0, .num 2, .num (4 / 100000)⟩]).getD 0
        []).getD 2 "" = "<0.0001" ∧
    ((formatComparisonTable
        [⟨"High vs. Placebo", .num 1, .num 0, .num 2, .num (1 / 10000)⟩]).getD 0
        []).getD 2 "" = "0.0001" := by
  have hcell : ((formatComparisonTable [c]).getD 0 []).getD 2 "" =
      if c.p_value.ge (1 / 10000) then fmtFl 4 c.p_value else "<0.0001" := rfl
  refine ⟨?_, ?_, by decide, by decide⟩
  · intro hlt
    have hge : Fl.ge c.p_value (1 / 10000) = false := by
      rw [hq, Fl.ge, decide_eq_false_iff_not]
      exact not_le.mpr hlt
    rw [hcell, hge]
    simp
  · intro hle
    have hge : Fl.ge c.p_value (1 / 10000) = true := by
      rw [hq, Fl.ge, decide_eq_true_eq]
      exact hle
    constructor
    · rw [hcell, hge, hq]
      simp [fmtFl]
    · refine ⟨(if roundHalfEven (q * (10 : ℚ) ^ 4) < 0 then "-" else "") ++
        toString ((roundHalfEven (q * (10 : ℚ) ^ 4)).natAbs / 10 ^ 4),
        String.mk (fracDigits 4 ((roundHalfEven (q * (10 : ℚ) ^ 4)).natAbs % 10 ^ 4)),
        rfl, ?_⟩
      show (fracDigits 4 _).length = 4
      simp [fracDigits]

/-- Record with p-value exactly 0.0001, as produced upstream. -/
def cRec1 : CompFmtRow := ⟨"High vs. Placebo", .num 1, .num 0, .num 2, .num (1 / 10000)⟩

/-- Witness for `pvalue_formatting` at the boundary value 0.0001. -/
theorem pvalue_formatting_witness :
    ((formatComparisonTable [cRec1]).getD 0 []).getD 2 "" = fmtFixed 4 (1 / 10000) ∧
    fmtFixed 4 (1 / 10000) = "0.0001" :=
  ⟨((pvalue_formatting cRec1 (1 / 10000) rfl).2.1 (le_refl _)).1, by decide⟩

/-- C10: the comparison-table formatter emits "<0.0001" exactly on failure
of the Python test `p_value >= 0.0001`; a `nan` p-value fails that test, so
it renders as "<0.0001" — not as "nan", not as the empty string, and not as
an error. -/
theorem nan_pvalue_formatting :
    ((formatComparisonTable
        [⟨"Low vs. Placebo", .num (3 / 2), .num 1, .num 2, Fl.nan⟩]).getD 0
        []).getD 2 "" = "<0.0001" ∧
    Fl.ge Fl.nan (1 / 10000) = false ∧
    ("<0.0001" : String) ≠ "nan" ∧ ("<0.0001" : String) ≠ "" := by decide

/-- Every element of a successfully collected list is the image of a list
element under the loop body. -/
theorem collectE_ok_mem {α β ε : Type} {f : α → Except ε β} :
    ∀ {l : List α} {out : List β}, collectE f l = .ok out →
      ∀ y ∈ out, ∃ x ∈ l, f x = .ok y := by
  intro l
  induction l with
  | nil =>
    intro out h y hy
    rw [collectE] at h
    cases Except.ok.inj h
    simp at hy
  | cons a as ih =>
    intro out h y hy
    rw [collectE] at h
    cases hfa : f a with
    | error e =>
      rw [hfa] at h
      exact Except.noConfusion h
    | ok b =>
      rw [hfa] at h
      cases hrest : collectE f as with
      | error e =>
        rw [hrest] at h
        exact Except.noConfusion h
      | ok bs =>
        rw [hrest] at h
        cases Except.ok.inj h
        rcases List.mem_cons.mp hy with rfl | hy'
        · exact ⟨a, List.mem_cons_self a as, hfa⟩
        · obtain ⟨x, hx, hfx⟩ := ih hrest y hy'
          exact ⟨x, List.mem_cons_of_mem a hx, hfx⟩

/-- C7 (amended): in every successful run of `perform_ancova`, every
adjusted-mean confidence interval uses the fixed normal multiplier 1.96
while every pairwise-contrast confidence interval uses the Student-t 0.975
quantile at the residual degrees of freedom — the two CI families use
different multiplier policies whenever the t-quantile differs from
1.96. -/
theorem ancova_ci_policy (tq : ℕ → ℚ) (pfn : ℚ → ℕ → Fl) (data : List ARow)
    (treatments : List String) (R : AncovaResult)
    (h : performAncova tq pfn data treatments = .ok R) :
    (∀ ls ∈ R.ls_means, ls.CI_mult = 196 / 100) ∧
    (∀ c ∈ R.comparisons, c.CI_mult = tq R.df_resid) := by
  simp only [performAncova] at h
  cases hC : collectE (lsMeanStep (fitOLS data treatments) treatments
      (qMean (data.map ARow.BASE))) treatments.enum with
  | error e =>
    rw [hC] at h
    exact Except.noConfusion h
  | ok L =>
    rw [hC] at h
    cases Except.ok.inj h
    constructor
    · intro ls hls
      obtain ⟨x, _, hfx⟩ := collectE_ok_mem hC ls hls
      rw [lsMeanStep] at hfx
      cases hq : quadForm (xPredRow x.1 (qMean (data.map ARow.BASE)))
          (fitOLS data treatments).cov with
      | none =>
        rw [hq] at hfx
        exact Except.noConfusion hfx
      | some s =>
        rw [hq] at hfx
        rw [← Except.ok.inj hfx]
    · intro c hc
      by_cases hlen : 1 < treatments.length
      · rw [show (⟨(fitOLS data treatments).params, (fitOLS data treatments).cov,
            (fitOLS data treatments).df_resid, qMean (data.map ARow.BASE), L,
            if 1 < treatments.length then
              (treatments.drop 1).filterMap
                (comparisonStep tq pfn (fitOLS data treatments) treatments)
            else []⟩ : AncovaResult).comparisons =
            if 1 < treatments.length then
              (treatments.drop 1).filterMap
                (comparisonStep tq pfn (fitOLS data treatments) treatments)
            else [] from rfl, if_pos hlen] at hc
        obtain ⟨trt, _, hstep⟩ := List.mem_filterMap.mp hc
        simp only [comparisonStep] at hstep
        by_cases hmem : ("TRTP[T." ++ trt ++ "]") ∈ paramNames treatments
        · rw [if_pos hmem] at hstep
          rw [← Option.some.inj hstep]
        · rw [if_neg hmem] at hstep
          exact Option.noConfusion hstep
      · rw [show (⟨(fitOLS data treatments).params, (fitOLS data treatments).cov,
            (fitOLS data treatments).df_resid, qMean (data.map ARow.BASE), L,
            if 1 < treatments.length then
              (treatments.drop 1).filterMap
                (comparisonStep tq pfn (fitOLS data treatments) treatments)
            else []⟩ : AncovaResult).comparisons =
            if 1 < treatments.length then
              (treatments.drop 1).filterMap
                (comparisonStep tq pfn (fitOLS data treatments) treatments)
            else [] from rfl, if_neg hlen] at hc
        simp at hc

/-- Three-group dataset (two subjects per group, nonzero residuals). -/
def d3w : List ARow :=
  [⟨"Placebo", 1, 1⟩, ⟨"Placebo", 2, 2⟩, ⟨"Low", 1, 3⟩, ⟨"Low", 2, 5⟩,
   ⟨"High", 1, 5⟩, ⟨"High", 2, 6⟩]

/-- Rational stand-in for `scipy.stats.t.ppf(0.975, df)`. Its exact value
is irrelevant to the structural theorems; for the counterexample only the
fact that the Student-t 97.5% quantile differs from 1.96 matters (it
exceeds 1.96 for every finite df; 4.30 is its value at df = 2 to two
decimals). -/
def tqS : ℕ → ℚ := fun _ => 43 / 10

/-- Rational stand-in for the two-sided t-tail probability
`2 * (1 - scipy.stats.t.cdf(|t|, df))`. -/
def pfnS : ℚ → ℕ → Fl := fun _ _ => Fl.num (1 / 100)

/-- Placeholder result for reading a successful run off an `Except`. -/
def dummyR : AncovaResult := ⟨[], [], 0, 0, [], []⟩

/-- Value of a successful `perform_ancova` run, with a default for the
error case. -/
def okD (x : Except AErr AncovaResult) (d : AncovaResult) : AncovaResult :=
  match x with
  | .ok v => v
  | .error _ => d

/-- The result of the three-group run of `perform_ancova` on `d3w`. -/
def R3 : AncovaResult :=
  okD (performAncova tqS pfnS d3w ["Placebo", "Low", "High"]) dummyR

/-- Witness for `ancova_ci_policy` at a concrete successful three-group
run. -/
theorem ancova_ci_policy_witness :
    performAncova tqS pfnS d3w ["Placebo", "Low", "High"] = .ok R3 ∧
    (R3.ls_means.getD 0 ⟨"", 0, 0, 0⟩).CI_mult = 196 / 100 ∧
    (R3.comparisons.getD 0 ⟨"", 0, 0, 0, .nan, 0⟩).CI_mult = tqS R3.df_resid := by
  have h : performAncova tqS pfnS d3w ["Placebo", "Low", "High"] = .ok R3 := by
    decide
  have hm := ancova_ci_policy tqS pfnS d3w ["Placebo", "Low", "High"] R3 h
  exact ⟨h, hm.1 _ (by decide), hm.2 _ (by decide)⟩

/-- Counterexample to C7 as stated: on a concrete successful run the
adjusted-mean intervals all use the multiplier 1.96 while the contrast
intervals all use the (Student-t) multiplier supplied by scipy — the two
are mixed, since the t-quantile is not 1.96. -/
theorem ancova_ci_policy_cex :
    R3.ls_means.map LsRec.CI_mult = [49 / 25, 49 / 25, 49 / 25] ∧
    R3.comparisons.map CmpRec.CI_mult = [43 / 10, 43 / 10] ∧
    (49 / 25 : ℚ) ≠ 43 / 10 := by decide

/-- C1 (amended): on every two-group treatments list with at least one
usable row, `perform_ancova` raises the numpy shape error from
`x_pred @ var_cov` — the hard-coded length-4 prediction vector against the
3-coefficient covariance matrix — regardless of whether the design is
singular; no `SingularDesignError` exists anywhere in the code, and the
contrasts are never reached. -/
theorem ancova_two_group_shape_error (tq : ℕ → ℚ) (pfn : ℚ → ℕ → Fl)
    (data : List ARow) (t1 t2 : String)
    (_hne : ∃ r ∈ data, r.TRTP = t1 ∨ r.TRTP = t2) :
    performAncova tq pfn data [t1, t2] = .error .dimMismatch := by
  simp only [performAncova]
  have hcovlen : (fitOLS data [t1, t2]).cov.length = 3 := by
    simp [fitOLS, mkMat]
  have hq : quadForm (xPredRow 0 (qMean (data.map ARow.BASE)))
      (fitOLS data [t1, t2]).cov = none := by
    simp [quadForm, hcovlen, xPredRow]
  have hstep : lsMeanStep (fitOLS data [t1, t2]) [t1, t2]
      (qMean (data.map ARow.BASE)) (0, t1) = .error .dimMismatch := by
    rw [lsMeanStep]
    simp only []
    rw [hq]
  have henum : ([t1, t2] : List String).enum = [(0, t1), (1, t2)] := rfl
  rw [henum, collectE, hstep]

/-- Two-group dataset whose second group has zero subjects: the pooled
design matrix has an all-zero indicator column and is singular. -/
def dS : List ARow := [⟨"A", 1, 1⟩, ⟨"A", 2, 2⟩, ⟨"A", 3, 4⟩]

/-- Witness for `ancova_two_group_shape_error` at the degenerate
one-empty-group input. -/
theorem ancova_two_group_shape_error_witness :
    performAncova tqS pfnS dS ["A", "B"] = .error .dimMismatch :=
  ancova_two_group_shape_error tqS pfnS dS "A" "B"
    ⟨⟨"A", 1, 1⟩, by decide, Or.inl rfl⟩

/-- Counterexample to C1 as stated: on the exact degenerate scenario of the
claim — a two-group treatments list whose second group has zero eligible
subjects, so that the pooled design matrix is singular (its normal-equation
determinant is zero) — `perform_ancova` does not fail with any
singular-design error: statsmodels fits the rank-deficient design through
the pseudoinverse, and the call then aborts with the numpy shape error
(`AErr.dimMismatch`, the only exception the function can raise) in the
LS-means loop, before any contrast is computed. -/
theorem ancova_singular_design_cex :
    detL (xtxOf dS ["A", "B"]) = 0 ∧
    performAncova tqS pfnS dS ["A", "B"] = .error .dimMismatch := by decide

/-- C6 (amended): for a list of exactly three distinct treatment groups,
every successful `perform_ancova` run reports, for each group, the fitted
model's prediction `xᵗ·β` at that group's indicator pattern with the
baseline covariate at the overall pooled mean, and a squared standard
error equal to the quadratic form `xᵗ·Σ·x` of that same prediction-row
design vector in the coefficient covariance matrix (for three groups the
hard-coded length-4 vector of line 161 coincides with the design vector;
for any other group count the SE computation instead raises, see
`ancova_two_group_shape_error`). -/
theorem ancova_ls_means_three_groups (tq : ℕ → ℚ) (pfn : ℚ → ℕ → Fl)
    (data : List ARow) (t1 t2 t3 : String) (R : AncovaResult)
    (h12 : t1 ≠ t2) (h13 : t1 ≠ t3) (h23 : t2 ≠ t3)
    (h : performAncova tq pfn data [t1, t2, t3] = .ok R) :
    R.baseline_mean = qMean (data.map ARow.BASE) ∧
    ∃ s0 s1 s2 : ℚ,
      R.ls_means =
        [⟨t1, dotQ (designRow [t1, t2, t3] t1 R.baseline_mean) R.params, s0, 196 / 100⟩,
         ⟨t2, dotQ (designRow [t1, t2, t3] t2 R.baseline_mean) R.params, s1, 196 / 100⟩,
         ⟨t3, dotQ (designRow [t1, t2, t3] t3 R.baseline_mean) R.params, s2, 196 / 100⟩] ∧
      some s0 = quadForm (designRow [t1, t2, t3] t1 R.baseline_mean) R.cov ∧
      some s1 = quadForm (designRow [t1, t2, t3] t2 R.baseline_mean) R.cov ∧
      some s2 = quadForm (designRow [t1, t2, t3] t3 R.baseline_mean) R.cov := by
  simp only [performAncova] at h
  set fit := fitOLS data [t1, t2, t3] with hfitdef
  set bm := qMean (data.map ARow.BASE) with hbmdef
  have e0 : designRow [t1, t2, t3] t1 bm = xPredRow 0 bm := by
    simp [designRow, xPredRow, h12, h13]
  have e1 : designRow [t1, t2, t3] t2 bm = xPredRow 1 bm := by
    simp [designRow, xPredRow, h23]
  have e2 : designRow [t1, t2, t3] t3 bm = xPredRow 2 bm := by
    simp [designRow, xPredRow, h13.symm, h23.symm]
  have henum : ([t1, t2, t3] : List String).enum = [(0, t1), (1, t2), (2, t3)] := rfl
  rw [henum] at h
  cases hC : collectE (lsMeanStep fit [t1, t2, t3] bm) [(0, t1), (1, t2), (2, t3)] with
  | error e =>
    rw [hC] at h
    exact Except.noConfusion h
  | ok L =>
    rw [hC] at h
    cases Except.ok.inj h
    rw [collectE] at hC
    cases hs0 : lsMeanStep fit [t1, t2, t3] bm (0, t1) with
    | error e =>
      rw [hs0] at hC
      exact Except.noConfusion hC
    | ok r0 =>
      rw [hs0] at hC
      cases hC1 : collectE (lsMeanStep fit [t1, t2, t3] bm) [(1, t2), (2, t3)] with
      | error e =>
        rw [hC1] at hC
        exact Except.noConfusion hC
      | ok L1 =>
        rw [hC1] at hC
        rw [collectE] at hC1
        cases hs1 : lsMeanStep fit [t1, t2, t3] bm (1, t2) with
        | error e =>
          rw [hs1] at hC1
          exact Except.noConfusion hC1
        | ok r1 =>
          rw [hs1] at hC1
          cases hC2 : collectE (lsMeanStep fit [t1, t2, t3] bm) [(2, t3)] with
          | error e =>
            rw [hC2] at hC1
            exact Except.noConfusion hC1
          | ok L2 =>
            rw [hC2] at hC1
            rw [collectE] at hC2
            cases hs2 : lsMeanStep fit [t1, t2, t3] bm (2, t3) with
            | error e =>
              rw [hs2] at hC2
              exact Except.noConfusion hC2
            | ok r2 =>
              rw [hs2, collectE] at hC2
              cases Except.ok.inj hC2
              cases Except.ok.inj hC1
              cases Except.ok.inj hC
              have hr0 : ∃ s, quadForm (xPredRow 0 bm) fit.cov = some s ∧
                  r0 = ⟨t1, dotQ (designRow [t1, t2, t3] t1 bm) fit.params,
                    s, 196 / 100⟩ := by
                rw [lsMeanStep] at hs0
                cases hq : quadForm (xPredRow 0 bm) fit.cov with
                | none =>
                  rw [hq] at hs0
                  exact Except.noConfusion hs0
                | some s =>
                  rw [hq] at hs0
                  exact ⟨s, rfl, (Except.ok.inj hs0).symm⟩
              have hr1 : ∃ s, quadForm (xPredRow 1 bm) fit.cov = some s ∧
                  r1 = ⟨t2, dotQ (designRow [t1, t2, t3] t2 bm) fit.params,
                    s, 196 / 100⟩ := by
                rw [lsMeanStep] at hs1
                cases hq : quadForm (xPredRow 1 bm) fit.cov with
                | none =>
                  rw [hq] at hs1
                  exact Except.noConfusion hs1
                | some s =>
                  rw [hq] at hs1
                  exact ⟨s, rfl, (Except.ok.inj hs1).symm⟩
              have hr2 : ∃ s, quadForm (xPredRow 2 bm) fit.cov = some s ∧
                  r2 = ⟨t3, dotQ (designRow [t1, t2, t3] t3 bm) fit.params,
                    s, 196 / 100⟩ := by
                rw [lsMeanStep] at hs2
                cases hq : quadForm (xPredRow 2 bm) fit.cov with
                | none =>
                  rw [hq] at hs2
                  exact Except.noConfusion hs2
                | some s =>
                  rw [hq] at hs2
                  exact ⟨s, rfl, (Except.ok.inj hs2).symm⟩
              obtain ⟨s0, hq0, hr0e⟩ := hr0
              obtain ⟨s1, hq1, hr1e⟩ := hr1
              obtain ⟨s2, hq2, hr2e⟩ := hr2
              refine ⟨rfl, s0, s1, s2, ?_, ?_, ?_, ?_⟩
              · show [r0, r1, r2] = _
                rw [hr0e, hr1e, hr2e]
              · show some s0 = quadForm (designRow [t1, t2, t3] t1 bm) fit.cov
                rw [e0, hq0]
              · show some s1 = quadForm (designRow [t1, t2, t3] t2 bm) fit.cov
                rw [e1, hq1]
              · show some s2 = quadForm (designRow [t1, t2, t3] t3 bm) fit.cov
                rw [e2, hq2]

/-- Witness for `ancova_ls_means_three_groups` at a concrete successful
three-group run (the "Low" group). -/
theorem ancova_ls_means_three_groups_witness :
    performAncova tqS pfnS d3w ["Placebo", "Low", "High"] = .ok R3 ∧
    (R3.ls_means.getD 1 ⟨"", 0, 0, 0⟩).LS_Mean =
      dotQ (designRow ["Placebo", "Low", "High"] "Low" R3.baseline_mean) R3.params ∧
    some (R3.ls_means.getD 1 ⟨"", 0, 0, 0⟩).SE_sq =
      quadForm (designRow ["Placebo", "Low", "High"] "Low" R3.baseline_mean) R3.cov := by
  have h : performAncova tqS pfnS d3w ["Placebo", "Low", "High"] = .ok R3 := by
    decide
  obtain ⟨hbm, s0, s1, s2, hls, hq0, hq1, hq2⟩ :=
    ancova_ls_means_three_groups tqS pfnS d3w "Placebo" "Low" "High" R3
      (by decide) (by decide) (by decide) h
  refine ⟨h, ?_, ?_⟩
  · rw [hls]
    rfl
  · rw [hls]
    simpa using hq1

/-- Full-rank two-group dataset. -/
def d2w : List ARow := [⟨"A", 1, 1⟩, ⟨"A", 2, 2⟩, ⟨"B", 1, 3⟩, ⟨"B", 3, 4⟩]

/-- Counterexample to C6 as stated ("for every treatments list, any number
of groups"): on a two-group input whose design is full rank — the OLS fit
itself succeeds, its normal-equation determinant being nonzero —
`perform_ancova` reports no adjusted mean at all: the hard-coded length-4
prediction vector aborts the run with the numpy shape error. -/
theorem ancova_group_count_cex :
    detL (xtxOf d2w ["A", "B"]) ≠ 0 ∧
    performAncova tqS pfnS d2w ["A", "B"] = .error .dimMismatch := by decide
